import Mathlib

/-!
Verification of `blivet/formats/fslabel.py`: filesystem-labeling application
variants (`E2Label`, `DosFsLabel`, `JFSTune`, `ReiserFSTune`, `XFSAdmin`),
their command construction, label-format validation, and label extraction
from captured tool output.

The Python module is embedded shallowly: each abstract method of the
`FSLabelApp` class hierarchy becomes a Lean function dispatching on a closed
inductive of the five variants.  Python exceptions become `Except` errors;
the distinct raise sites of the source are distinguished by `LabelError`
constructors following the error taxonomy of the specification
(UnsupportedOperation / InvalidOperation / ParseError).  Python's
`re.match` on the two patterns actually used (`(?P<label>.*)` and
`label = "(?P<label>.*)"`) is embedded by a matcher for patterns of the
shape "literal head, greedy dot-star group, literal tail": anchored at the
start of the input, unanchored at the end, with `.` not matching newline
and the group matched greedily.
-/

/-- The five filesystem-labeling application variants of the module. -/
inductive FSLabelApp where
  | E2Label
  | DosFsLabel
  | JFSTune
  | ReiserFSTune
  | XFSAdmin
deriving DecidableEq, Repr

/-- The filesystem collaborator value: the two attributes the module uses. -/
structure FS where
  device : String
  label : String
deriving DecidableEq, Repr

/-- Error kinds, one per distinct raise site of the source, named after the
specification's error taxonomy.  `notImplemented` models the
`NotImplementedError` raised by the stub read methods of the non-reading
variants; it is unreachable through the public operations. -/
inductive LabelError where
  | unsupportedOperation
  | invalidOperation
  | parseError
  | notImplemented
deriving DecidableEq, Repr

namespace FSLabelApp

/-- `_name` class attribute of each variant. -/
def name : FSLabelApp → String
  | .E2Label => "e2label"
  | .DosFsLabel => "dosfslabel"
  | .JFSTune => "jfs_tune"
  | .ReiserFSTune => "reiserfstune"
  | .XFSAdmin => "xfs_admin"

/-- The `reads` property: whether the app can also read a label. -/
def reads : FSLabelApp → Bool
  | .E2Label => true
  | .DosFsLabel => true
  | .JFSTune => false
  | .ReiserFSTune => false
  | .XFSAdmin => true

/-- The `unsetsLabel` property: whether the app can write an empty label. -/
def unsetsLabel : FSLabelApp → Bool
  | .E2Label => true
  | .DosFsLabel => true
  | .JFSTune => true
  | .ReiserFSTune => true
  | .XFSAdmin => false

/-- `labelFormatOK`: the per-variant label validation rule.  Python's
`' ' in label` on a single-character needle is membership of that character
among the string's characters. -/
def labelFormatOK : FSLabelApp → String → Bool
  | .E2Label, label => label.length < 17
  | .DosFsLabel, label => label.length < 12
  | .JFSTune, label => label.length < 17
  | .ReiserFSTune, label => label.length < 17
  | .XFSAdmin, label => !(label.data.contains ' ') && label.length < 13

/-- `_writeLabelArgs`: per-variant arguments for writing a label.  Python's
`if fs.label:` tests string truthiness, i.e. non-emptiness.  `XFSAdmin`
raises (`ValueError` in the source, InvalidOperation in the spec's
taxonomy) when asked to set an empty label. -/
def writeLabelArgs : FSLabelApp → FS → Except LabelError (List String)
  | .E2Label, fs =>
    if fs.label ≠ "" then .ok [fs.device, fs.label] else .ok [fs.device, ""]
  | .DosFsLabel, fs =>
    if fs.label ≠ "" then .ok [fs.device, fs.label] else .ok [fs.device, ""]
  | .JFSTune, fs =>
    if fs.label ≠ "" then .ok ["-L", fs.label, fs.device] else .ok ["-L", "", fs.device]
  | .ReiserFSTune, fs =>
    if fs.label ≠ "" then .ok ["-l", fs.label, fs.device] else .ok ["-l", "", fs.device]
  | .XFSAdmin, fs =>
    if fs.label ≠ "" then .ok ["-L", fs.label, fs.device] else .error .invalidOperation

/-- `setLabelCommand`: `[self.name] + self._writeLabelArgs(fs)`. -/
def setLabelCommand (app : FSLabelApp) (fs : FS) : Except LabelError (List String) :=
  (app.writeLabelArgs fs).map (fun args => app.name :: args)

/-- `_readLabelArgs`: per-variant arguments for reading a label.  The
non-reading variants' stubs raise `NotImplementedError`. -/
def readLabelArgs : FSLabelApp → FS → Except LabelError (List String)
  | .E2Label, fs => .ok [fs.device]
  | .DosFsLabel, fs => .ok [fs.device]
  | .JFSTune, _ => .error .notImplemented
  | .ReiserFSTune, _ => .error .notImplemented
  | .XFSAdmin, fs => .ok ["-l", fs.device]

/-- `readLabelCommand`: raises (`FSError` in the source, UnsupportedOperation
in the spec's taxonomy) when `reads` is false, otherwise
`[self.name] + self._readLabelArgs(fs)`. -/
def readLabelCommand (app : FSLabelApp) (fs : FS) : Except LabelError (List String) :=
  if app.reads then (app.readLabelArgs fs).map (fun args => app.name :: args)
  else .error .unsupportedOperation

end FSLabelApp

/-! ## Embedding of `re.match` on the two label patterns

Both patterns used by `_labelstrRegex` have the shape
`head-literals (?P<label>.*) tail-literals` with `head = ""`, `tail = ""`
for `E2Label`/`DosFsLabel` and `head = 'label = "'`, `tail = '"'` for
`XFSAdmin`.  `re.match` anchors the pattern at the start of the input but
not at its end; `.` does not match a newline; `.*` is greedy. -/

/-- Strip an exact sequence of literal characters from the front of the
input; `none` when the input does not start with them. -/
def dropLits : List Char → List Char → Option (List Char)
  | [], s => some s
  | _ :: _, [] => none
  | p :: ps, c :: cs => if p = c then dropLits ps cs else none

/-- Match `(?P<label>.*)` followed by the literal characters `tail` against
`r`, greedily, unanchored at the end: the group consumes as many
non-newline characters as possible such that `tail` follows immediately;
whatever comes after `tail` is ignored.  Returns the characters captured by
the group. -/
def greedyStar (tail : List Char) : List Char → Option (List Char)
  | [] => if tail.isPrefixOf [] then some [] else none
  | c :: cs =>
    if c = '\n' then
      if tail.isPrefixOf (c :: cs) then some [] else none
    else
      match greedyStar tail cs with
      | some g => some (c :: g)
      | none => if tail.isPrefixOf (c :: cs) then some [] else none

/-- A pattern of the shape `head (?P<label>.*) tail`, covering both regexes
of the source. -/
structure LabelRegex where
  head : List Char
  tail : List Char
deriving DecidableEq, Repr

/-- `re.match(pat, s)` for a `LabelRegex`, returning the `label` group. -/
def reMatchLabel (rx : LabelRegex) (s : String) : Option String :=
  match dropLits rx.head s.data with
  | none => none
  | some r =>
    match greedyStar rx.tail r with
    | none => none
    | some g => some ⟨g⟩

/-- The literal characters before the group in `XFSAdmin`'s pattern
`label = "(?P<label>.*)"`. -/
def xfsHeader : List Char := "label = \"".data

namespace FSLabelApp

/-- `_labelstrRegex` of each variant; `none` models the
`NotImplementedError` stubs of the non-reading variants. -/
def labelstrRegex : FSLabelApp → Option LabelRegex
  | .E2Label => some ⟨[], []⟩
  | .DosFsLabel => some ⟨[], []⟩
  | .JFSTune => none
  | .ReiserFSTune => none
  | .XFSAdmin => some ⟨xfsHeader, ['"']⟩

/-- `extractLabel`: raises (UnsupportedOperation) when `reads` is false,
then matches `_labelstrRegex` against the input and raises (ParseError)
when there is no match, otherwise returns the `label` group. -/
def extractLabel (app : FSLabelApp) (labelstr : String) : Except LabelError String :=
  if app.reads then
    match app.labelstrRegex with
    | none => .error .notImplemented
    | some rx =>
      match reMatchLabel rx labelstr with
      | none => .error .parseError
      | some l => .ok l
  else .error .unsupportedOperation

end FSLabelApp

open FSLabelApp

/-! ## Characterization of the matcher -/

/-- The first line of a character sequence: its longest prefix free of
newline characters.  This is exactly what `.*` can consume. -/
def lineOf (r : List Char) : List Char := r.takeWhile (fun c => c ≠ '\n')

/-- Everything up to (excluding) the last `"` of a character sequence, or
`none` when it has no `"`. -/
def upToLastQuote (l : List Char) : Option (List Char) :=
  match (l.reverse).dropWhile (fun c => c ≠ '"') with
  | [] => none
  | _ :: t => some t.reverse

lemma dropLits_eq (p : List Char) :
    ∀ s : List Char,
      dropLits p s = if p.isPrefixOf s then some (s.drop p.length) else none := by
  induction p with
  | nil => intro s; simp [dropLits, List.isPrefixOf]
  | cons a ps ih =>
    intro s
    cases s with
    | nil => simp [dropLits, List.isPrefixOf]
    | cons c cs =>
      by_cases hac : a = c
      · subst hac
        simp [dropLits, List.isPrefixOf, ih cs]
      · simp [dropLits, List.isPrefixOf, hac]

lemma greedyStar_nil_tail (r : List Char) :
    greedyStar [] r = some (lineOf r) := by
  induction r with
  | nil => rfl
  | cons c cs ih =>
    by_cases hc : c = '\n'
    · subst hc
      simp [greedyStar, lineOf, List.isPrefixOf]
    · simp [greedyStar, lineOf, hc, ih, List.takeWhile_cons]

lemma upToLastQuote_cons (c : Char) (L : List Char) :
    upToLastQuote (c :: L) =
      match upToLastQuote L with
      | some g => some (c :: g)
      | none => if c = '"' then some [] else none := by
  unfold upToLastQuote
  rw [List.reverse_cons, List.dropWhile_append]
  cases h : (L.reverse.dropWhile (fun x => decide (x ≠ '"'))) with
  | nil =>
    by_cases hc : c = '"' <;> simp [h, List.dropWhile_cons, hc]
  | cons q t =>
    simp [h]

lemma greedyStar_quote (r : List Char) :
    greedyStar ['"'] r = upToLastQuote (lineOf r) := by
  induction r with
  | nil => rfl
  | cons c cs ih =>
    by_cases hc : c = '\n'
    · subst hc
      simp [greedyStar, lineOf, List.isPrefixOf, upToLastQuote]
    · rw [show lineOf (c :: cs) = c :: lineOf cs by
            simp [lineOf, List.takeWhile_cons, hc],
          upToLastQuote_cons]
      simp only [greedyStar, if_neg hc, ih]
      cases h : upToLastQuote (lineOf cs) with
      | some g => simp
      | none =>
        by_cases hq : c = '"'
        · subst hq
          simp [List.isPrefixOf]
        · have hq2 : ('"' == c) = false := by
            simp only [beq_eq_false_iff_ne, ne_eq]
            exact fun he => hq he.symm
          simp [List.isPrefixOf, hq2, hq]

lemma upToLastQuote_eq_none_iff (L : List Char) :
    upToLastQuote L = none ↔ '"' ∉ L := by
  induction L with
  | nil => simp [upToLastQuote]
  | cons c t ih =>
    rw [upToLastQuote_cons]
    cases h : upToLastQuote t with
    | some g =>
      rw [h] at ih
      simp at ih ⊢
      exact fun _ => ih
    | none =>
      rw [h] at ih
      simp only [eq_self_iff_true, true_iff] at ih
      by_cases hc : c = '"' <;> simp [hc, ih, eq_comm]

lemma extractLabel_E2 (s : String) :
    extractLabel .E2Label s = .ok ⟨lineOf s.data⟩ := by
  simp [extractLabel, labelstrRegex, reads, reMatchLabel, dropLits,
    greedyStar_nil_tail]

lemma extractLabel_Dos (s : String) :
    extractLabel .DosFsLabel s = .ok ⟨lineOf s.data⟩ := by
  simp [extractLabel, labelstrRegex, reads, reMatchLabel, dropLits,
    greedyStar_nil_tail]

/-- The behavior of `XFSAdmin` label extraction, stated declaratively:
success exactly when the input starts with the literal header
`label = "` and the rest of the input's first line contains a `"`; the
captured label is everything up to the last `"` on that line. -/
def xfsExtractClaimed (s : String) : Except LabelError String :=
  if xfsHeader.isPrefixOf s.data then
    match upToLastQuote (lineOf (s.data.drop xfsHeader.length)) with
    | some g => .ok ⟨g⟩
    | none => .error .parseError
  else .error .parseError

lemma extractLabel_XFS (s : String) :
    extractLabel .XFSAdmin s = xfsExtractClaimed s := by
  unfold extractLabel xfsExtractClaimed labelstrRegex reMatchLabel
  simp only [reads, if_true]
  rw [dropLits_eq]
  by_cases h : xfsHeader.isPrefixOf s.data
  · simp only [h, if_true, greedyStar_quote]
    cases upToLastQuote (lineOf (s.data.drop xfsHeader.length)) <;> simp
  · simp [h]

/-! ## Claims -/

/-- Claim C1: for every filesystem value with a device string and a label
string, `setLabelCommand` returns the variant's program name followed by
the variant's write arguments: `E2Label` gives `["e2label", device, label]`
(with `""` in the label position when the label is empty, which coincides
with the label itself), `DosFsLabel` gives `["dosfslabel", device, label]`,
`JFSTune` gives `["jfs_tune", "-L", label, device]`, `ReiserFSTune` gives
`["reiserfstune", "-l", label, device]`, and `XFSAdmin` with a non-empty
label gives `["xfs_admin", "-L", label, device]`. -/
theorem C1_setLabelCommand (d l : String) :
    setLabelCommand .E2Label ⟨d, l⟩ = .ok ["e2label", d, l] ∧
    setLabelCommand .DosFsLabel ⟨d, l⟩ = .ok ["dosfslabel", d, l] ∧
    setLabelCommand .JFSTune ⟨d, l⟩ = .ok ["jfs_tune", "-L", l, d] ∧
    setLabelCommand .ReiserFSTune ⟨d, l⟩ = .ok ["reiserfstune", "-l", l, d] ∧
    (l ≠ "" → setLabelCommand .XFSAdmin ⟨d, l⟩ = .ok ["xfs_admin", "-L", l, d]) := by
  refine ⟨?_, ?_, ?_, ?_, fun h => ?_⟩ <;>
    by_cases h0 : l = "" <;>
      simp_all [setLabelCommand, writeLabelArgs, name, Except.map]

/-- Witness for C1 at a concrete device and label. -/
theorem C1_witness :
    setLabelCommand .XFSAdmin ⟨"/dev/sda1", "vol1"⟩ =
      .ok ["xfs_admin", "-L", "vol1", "/dev/sda1"] :=
  (C1_setLabelCommand "/dev/sda1" "vol1").2.2.2.2 (by decide)

/-- Claim C3: `readLabelCommand` fails with UnsupportedOperation exactly on
the variants whose `reads` is false (`JFSTune` and `ReiserFSTune`); on the
reading variants it returns the program name followed by the read
arguments. -/
theorem C3_readLabelCommand (d l : String) :
    (∀ app : FSLabelApp,
        (readLabelCommand app ⟨d, l⟩ = .error .unsupportedOperation ↔
          app.reads = false)) ∧
    readLabelCommand .E2Label ⟨d, l⟩ = .ok ["e2label", d] ∧
    readLabelCommand .DosFsLabel ⟨d, l⟩ = .ok ["dosfslabel", d] ∧
    readLabelCommand .XFSAdmin ⟨d, l⟩ = .ok ["xfs_admin", "-l", d] ∧
    readLabelCommand .JFSTune ⟨d, l⟩ = .error .unsupportedOperation ∧
    readLabelCommand .ReiserFSTune ⟨d, l⟩ = .error .unsupportedOperation := by
  refine ⟨fun app => ?_, ?_, ?_, ?_, ?_, ?_⟩
  · cases app <;> simp [readLabelCommand, readLabelArgs, reads, name, Except.map]
  all_goals simp [readLabelCommand, readLabelArgs, reads, name, Except.map]

/-- Witness for C3 at a concrete filesystem value. -/
theorem C3_witness :
    readLabelCommand .JFSTune ⟨"/dev/sda1", "vol1"⟩ =
      .error .unsupportedOperation :=
  ((C3_readLabelCommand "/dev/sda1" "vol1").1 .JFSTune).mpr (by decide)

/-- Claim C4: `labelFormatOK` is a pure boolean function of the label:
`E2Label`, `JFSTune` and `ReiserFSTune` accept exactly labels of length
below 17, `DosFsLabel` exactly length below 12, and `XFSAdmin` exactly
labels without a space character and of length below 13. -/
theorem C4_labelFormatOK (l : String) :
    (labelFormatOK .E2Label l = true ↔ l.length < 17) ∧
    (labelFormatOK .JFSTune l = true ↔ l.length < 17) ∧
    (labelFormatOK .ReiserFSTune l = true ↔ l.length < 17) ∧
    (labelFormatOK .DosFsLabel l = true ↔ l.length < 12) ∧
    (labelFormatOK .XFSAdmin l = true ↔
      (' ' ∉ l.data ∧ l.length < 13)) := by
  simp [labelFormatOK]

/-- Witness for C4 at concrete labels of the spec's examples. -/
theorem C4_witness :
    labelFormatOK .E2Label "xxxxxxxxxxxxxxxx" = true ∧
    labelFormatOK .XFSAdmin "nospace12" = true :=
  ⟨(C4_labelFormatOK "xxxxxxxxxxxxxxxx").1.mpr (by decide),
   (C4_labelFormatOK "nospace12").2.2.2.2.mpr (by decide)⟩

/-- Claim C5: on a filesystem value whose label is empty, `XFSAdmin`'s
`setLabelCommand` fails with InvalidOperation, while the four other
variants succeed, `E2Label` yielding `["e2label", device, ""]` and
similarly for the rest. -/
theorem C5_empty_label (fs : FS) (h : fs.label = "") :
    setLabelCommand .XFSAdmin fs = .error .invalidOperation ∧
    setLabelCommand .E2Label fs = .ok ["e2label", fs.device, ""] ∧
    setLabelCommand .DosFsLabel fs = .ok ["dosfslabel", fs.device, ""] ∧
    setLabelCommand .JFSTune fs = .ok ["jfs_tune", "-L", "", fs.device] ∧
    setLabelCommand .ReiserFSTune fs = .ok ["reiserfstune", "-l", "", fs.device] := by
  simp [setLabelCommand, writeLabelArgs, name, h, Except.map]

/-- Witness for C5 at a concrete empty-label filesystem value. -/
theorem C5_witness :
    setLabelCommand .XFSAdmin ⟨"/dev/sda1", ""⟩ = .error .invalidOperation ∧
    setLabelCommand .E2Label ⟨"/dev/sda1", ""⟩ = .ok ["e2label", "/dev/sda1", ""] :=
  ⟨(C5_empty_label ⟨"/dev/sda1", ""⟩ rfl).1, (C5_empty_label ⟨"/dev/sda1", ""⟩ rfl).2.1⟩

/-- Claim C7: on the non-reading variants `JFSTune` and `ReiserFSTune`,
`extractLabel` fails with UnsupportedOperation on every input string and
never returns a label. -/
theorem C7_extract_unsupported (s : String) :
    extractLabel .JFSTune s = .error .unsupportedOperation ∧
    extractLabel .ReiserFSTune s = .error .unsupportedOperation :=
  ⟨rfl, rfl⟩

/-- Witness for C7 at a concrete input. -/
theorem C7_witness :
    extractLabel .JFSTune "label" = .error .unsupportedOperation :=
  (C7_extract_unsupported "label").1

/-- Claim C8: on `E2Label` and `DosFsLabel`, `extractLabel` never fails
with ParseError: the match-everything pattern matches every input, so the
only code path is success. -/
theorem C8_extract_never_fails (s : String) :
    extractLabel .E2Label s ≠ .error .parseError ∧
    extractLabel .DosFsLabel s ≠ .error .parseError ∧
    (∃ l, extractLabel .E2Label s = .ok l) ∧
    (∃ l, extractLabel .DosFsLabel s = .ok l) := by
  rw [extractLabel_E2, extractLabel_Dos]
  exact ⟨by simp, by simp, ⟨_, rfl⟩, ⟨_, rfl⟩⟩

/-- Witness for C8 at a concrete input. -/
theorem C8_witness :
    extractLabel .E2Label "" ≠ .error .parseError :=
  (C8_extract_never_fails "").1

/-- Counterexample to claim C2 as stated: the input below contains the
text `label = "vol1"` (shown by the explicit decomposition), yet
`XFSAdmin.extractLabel` fails with ParseError, because the source matches
with `re.match`, which anchors the pattern at the start of the input. -/
theorem C2_counterexample :
    "x label = \"vol1\"".data = ("x ".data ++ "label = \"vol1\"".data) ∧
    extractLabel .XFSAdmin "x label = \"vol1\"" = .error .parseError :=
  ⟨by decide, rfl⟩

/-- Claim C2 (amended): `XFSAdmin.extractLabel s` succeeds with the
captured label exactly when `s` starts with the text `label = "` and is
followed, before any newline, by another `"`; on any other input it fails
with ParseError; in particular the input `label = "vol1"` yields `vol1`
and the input `garbage` fails with ParseError. -/
theorem C2_xfs_extract_amended (s : String) :
    ((∃ l, extractLabel .XFSAdmin s = .ok l) ↔
      (xfsHeader.isPrefixOf s.data = true ∧
        '"' ∈ lineOf (s.data.drop xfsHeader.length))) ∧
    (xfsHeader.isPrefixOf s.data = false →
      extractLabel .XFSAdmin s = .error .parseError) ∧
    extractLabel .XFSAdmin "label = \"vol1\"" = .ok "vol1" ∧
    extractLabel .XFSAdmin "garbage" = .error .parseError := by
  refine ⟨?_, fun h => ?_, rfl, rfl⟩
  · rw [extractLabel_XFS]; unfold xfsExtractClaimed
    by_cases h : xfsHeader.isPrefixOf s.data
    · simp only [h, if_true]
      cases hq : upToLastQuote (lineOf (s.data.drop xfsHeader.length)) with
      | some g =>
        have hm : '"' ∈ lineOf (s.data.drop xfsHeader.length) := by
          by_contra hn
          rw [← upToLastQuote_eq_none_iff, hq] at hn
          cases hn
        simp [h, hm]
      | none =>
        have hm := (upToLastQuote_eq_none_iff _).mp hq
        simp [h, hm]
    · simp [h]
  · rw [extractLabel_XFS]; unfold xfsExtractClaimed
    simp [h]

/-- Witness for the amended C2 at a concrete non-matching input. -/
theorem C2_witness :
    extractLabel .XFSAdmin "xyz" = .error .parseError :=
  (C2_xfs_extract_amended "xyz").2.1 (by decide)

/-- Counterexample to claim C6 as stated: on an input containing a
newline, `E2Label.extractLabel` and `DosFsLabel.extractLabel` do not
return the input unchanged but only its first line, because `.` in the
pattern `(?P<label>.*)` does not match a newline. -/
theorem C6_counterexample :
    extractLabel .E2Label "a\nb" = .ok "a" ∧
    extractLabel .DosFsLabel "a\nb" = .ok "a" ∧
    ("a" : String) ≠ "a\nb" :=
  ⟨rfl, rfl, by decide⟩

/-- Claim C6 (amended): for every input string `s`,
`E2Label.extractLabel s` and `DosFsLabel.extractLabel s` return the
longest newline-free prefix of `s` — in particular `s` itself whenever `s`
contains no newline, e.g. on `myvolume`. -/
theorem C6_extract_first_line (s : String) :
    extractLabel .E2Label s = .ok ⟨lineOf s.data⟩ ∧
    extractLabel .DosFsLabel s = .ok ⟨lineOf s.data⟩ ∧
    ('\n' ∉ s.data →
      extractLabel .E2Label s = .ok s ∧ extractLabel .DosFsLabel s = .ok s) := by
  refine ⟨extractLabel_E2 s, extractLabel_Dos s, fun h => ?_⟩
  have hl : lineOf s.data = s.data := by
    apply List.takeWhile_eq_self_iff.mpr
    intro x hx
    simp only [ne_eq, decide_eq_true_eq]
    exact fun he => h (he ▸ hx)
  rw [extractLabel_E2, extractLabel_Dos, hl]
  exact ⟨rfl, rfl⟩

/-- Witness for the amended C6 at the spec's concrete input. -/
theorem C6_witness :
    extractLabel .E2Label "myvolume" = .ok "myvolume" :=
  ((C6_extract_first_line "myvolume").2.2 (by decide)).1

/-- Claim C9: `XFSAdmin.extractLabel` agrees everywhere with its
declarative description `xfsExtractClaimed`: it succeeds exactly when the
input starts with `label = "` followed, before any newline, by at least
one more `"`, capturing greedily up to the last such quote on that line;
hence text before the header fails, text after the final quote is
ignored, and quote characters inside the label are returned.  The two
closed conjuncts illustrate the greedy capture and the anchoring. -/
theorem C9_xfs_extract_exact (s : String) :
    (extractLabel .XFSAdmin s = xfsExtractClaimed s) ∧
    extractLabel .XFSAdmin "label = \"a\"b\"c" = .ok "a\"b" ∧
    extractLabel .XFSAdmin "pre label = \"v\"" = .error .parseError :=
  ⟨extractLabel_XFS s, rfl, rfl⟩

/-- Claim C10: every operation of every variant is deterministic: equal
variants and equal inputs give equal results, and the per-variant
constants are untouched by any call (the operations are pure Lean
functions of the variant and the call's arguments alone, mirroring the
source methods, which perform no assignment). -/
theorem C10_pure (app app2 : FSLabelApp) (fs1 fs2 : FS) (l1 l2 s1 s2 : String)
    (ha : app = app2) (hfs : fs1 = fs2) (hl : l1 = l2) (hs : s1 = s2) :
    labelFormatOK app l1 = labelFormatOK app2 l2 ∧
    setLabelCommand app fs1 = setLabelCommand app2 fs2 ∧
    readLabelCommand app fs1 = readLabelCommand app2 fs2 ∧
    extractLabel app s1 = extractLabel app2 s2 ∧
    name app = name app2 ∧ reads app = reads app2 ∧
    unsetsLabel app = unsetsLabel app2 := by
  subst ha; subst hfs; subst hl; subst hs
  exact ⟨rfl, rfl, rfl, rfl, rfl, rfl, rfl⟩

/-- Witness for C10 at concrete equal inputs. -/
theorem C10_witness :
    labelFormatOK .E2Label "vol" = labelFormatOK .E2Label "vol" :=
  (C10_pure .E2Label .E2Label ⟨"d", "v"⟩ ⟨"d", "v"⟩ "vol" "vol" "out" "out"
    rfl rfl rfl rfl).1
